import Mathlib

/-
Verification development for the VCCA client core:
a shallow embedding of

  * the reconnecting WebSocket transport
    (extension/src/webview/services/websocket.ts, class WebSocketClient),
  * the timeline / session reducer of the webview
    (extension/src/webview/App.tsx, the onMessage handler and its helpers
    addToTimeline, updateTimelinePlan, updateStepStatusInTimeline), and
  * the host-side tool bridge
    (chatViewProvider.ts, the tool_usage case of onDidReceiveMessage),

together with theorems settling the specified properties of these
components.  TypeScript values that may be undefined are embedded as
Option; JavaScript arrays as List; string identity comparison (===) as
String equality.  Wall-clock values (Date.now(), toLocaleTimeString())
are passed in as explicit parameters of the events that consume them, so
every definition is executable and deterministic.
-/

set_option autoImplicit false

namespace VCCA

/-! ## Transport: WebSocketClient (websocket.ts) -/

/-- Browser WebSocket ready states. -/
inductive ReadyState where
  | CONNECTING
  | OPEN
  | CLOSING
  | CLOSED
deriving DecidableEq, Repr

/-- One physical WebSocket object: its ready state and the frames that were
actually handed to it for transmission (`ws.send`). -/
structure PhysSocket where
  readyState : ReadyState
  sentFrames : List String
deriving DecidableEq, Repr

/-- State of a `WebSocketClient` instance (websocket.ts:36-42).
`ws` is the socket currently referenced by `this.ws`; `orphaned` collects
sockets that a later `connect()` overwrote without closing them (the source
never closes the previous socket).  `statusLog` records the sequence of
status values broadcast to the `onStatus` subscribers.  The class has no
outgoing message queue of any kind. -/
structure WSClient where
  ws : Option PhysSocket
  orphaned : List PhysSocket
  reconnectAttempts : Nat
  statusLog : List String
deriving DecidableEq, Repr

/-- `maxReconnectDelay` (websocket.ts:42). -/
def maxReconnectDelay : Nat := 10000

/-- The delay computed on an unclean close (websocket.ts:78):
`Math.min(1000 * Math.pow(2, this.reconnectAttempts), this.maxReconnectDelay)`. -/
def reconnectDelay (attempts : Nat) : Nat :=
  min (1000 * 2 ^ attempts) maxReconnectDelay

/-- A fresh client: `this.ws = null`, `reconnectAttempts = 0`. -/
def freshClient : WSClient :=
  { ws := none, orphaned := [], reconnectAttempts := 0, statusLog := [] }

/-- `connect()` (websocket.ts:51-54): broadcast `connecting`, then
`this.ws = new WebSocket(this.url)`.  The previously referenced socket, if
any, is dereferenced but never closed, so it moves to `orphaned` with its
ready state intact. -/
def WSClient.connect (c : WSClient) : WSClient :=
  { c with
    statusLog := c.statusLog ++ ["connecting"],
    orphaned := c.orphaned ++ c.ws.toList,
    ws := some { readyState := ReadyState.CONNECTING, sentFrames := [] } }

/-- `send(msg)` (websocket.ts:103-107): transmit only when
`this.ws && this.ws.readyState === WebSocket.OPEN`; otherwise do nothing at
all (the class keeps no buffer). -/
def WSClient.send (c : WSClient) (msg : String) : WSClient :=
  match c.ws with
  | some sock =>
      if sock.readyState = ReadyState.OPEN then
        { c with ws := some { sock with sentFrames := sock.sentFrames ++ [msg] } }
      else c
  | none => c

/-- Events delivered to the current socket's handlers, plus external calls
on the client. -/
inductive WSEvent where
  | onopenCb
  | oncloseCleanCb
  | oncloseUncleanCb
  | connectCall
  | sendCall (msg : String)
deriving DecidableEq, Repr

/-- One step of the client.  Returns the new state and, for an unclean
close, the reconnect delay passed to `setTimeout` (websocket.ts:78-83).
The timer body (`reconnectAttempts++; connect()`) is folded into the same
step, since nothing else in the client runs between the close handler and
the timer firing.  `onopen` (websocket.ts:56-60) resets the attempt counter
to 0 and broadcasts `connected`; a clean close (wasClean) only broadcasts
`disconnected` and schedules nothing. -/
def wsApply (c : WSClient) : WSEvent → WSClient × Option Nat
  | WSEvent.onopenCb =>
      ({ c with
          reconnectAttempts := 0,
          statusLog := c.statusLog ++ ["connected"],
          ws := c.ws.map (fun sock => { sock with readyState := ReadyState.OPEN }) }, none)
  | WSEvent.oncloseCleanCb =>
      ({ c with
          statusLog := c.statusLog ++ ["disconnected"],
          ws := c.ws.map (fun sock => { sock with readyState := ReadyState.CLOSED }) }, none)
  | WSEvent.oncloseUncleanCb =>
      let delay := reconnectDelay c.reconnectAttempts
      let c1 : WSClient :=
        { c with
          statusLog := c.statusLog ++ ["disconnected"],
          ws := c.ws.map (fun sock => { sock with readyState := ReadyState.CLOSED }) }
      (WSClient.connect { c1 with reconnectAttempts := c1.reconnectAttempts + 1 }, some delay)
  | WSEvent.connectCall => (c.connect, none)
  | WSEvent.sendCall msg => (c.send msg, none)

/-- Run a list of events, collecting the scheduled reconnect delays in
order. -/
def wsRun (c : WSClient) : List WSEvent → WSClient × List Nat
  | [] => (c, [])
  | e :: es =>
      let step := wsApply c e
      let rest := wsRun step.1 es
      (rest.1, step.2.toList ++ rest.2)

/-- Physical connection attempts that are outstanding: every socket ever
constructed whose ready state is not CLOSED. -/
def outstandingAttempts (c : WSClient) : Nat :=
  ((c.orphaned ++ c.ws.toList).filter (fun sock => sock.readyState ≠ ReadyState.CLOSED)).length

/-! ## Timeline data model (App.tsx:319-341) -/

/-- `LogData` (App.tsx:319).  The `payload` is an arbitrary value in the
source; the reducer only stores it, so it is embedded as an opaque string. -/
structure LogData where
  id : String
  timestamp : String
  type : String
  category : Option String
  payload : String
deriving DecidableEq, Repr

/-- `StepNode` (App.tsx:327). -/
structure StepNode where
  id : String
  title : String
  status : String
  logs : List LogData
deriving DecidableEq, Repr

/-- A step of an `ExecutionPlan` payload (`plan.steps[i]`). -/
structure PlanStep where
  id : String
  title : String
  description : String
  status : String
deriving DecidableEq, Repr

/-- An `ExecutionPlan` payload as the reducer reads it: `refined_goal` (may
be absent) and `steps` (read as `plan.steps || []`). -/
structure Plan where
  refined_goal : Option String
  steps : List PlanStep
deriving DecidableEq, Repr

/-- `InteractionNode` (App.tsx:334). -/
structure InteractionNode where
  id : String
  timestamp : String
  title : String
  steps : List StepNode
  plan : Option Plan
  logs : List LogData
deriving DecidableEq, Repr

/-! ## Conversational message list (App.tsx:93-133) -/

/-- `plan_data` of a ChatMessage (App.tsx:102). -/
structure PlanData where
  goal : Option String
  steps : List PlanStep
  isCollapsed : Bool
deriving DecidableEq, Repr

/-- `step_data` of a ChatMessage (App.tsx:109).  The id/title/description
come from a loosely typed payload and may be absent. -/
structure StepData where
  id : Option String
  title : Option String
  description : Option String
  status : String
  isCollapsed : Bool
deriving DecidableEq, Repr

/-- `tool_data` of a ChatMessage (App.tsx:118).  `args` is opaque. -/
structure ToolData where
  label : String
  name : Option String
  args : Option String
  status : String
deriving DecidableEq, Repr

/-- One entry of a ChatMessage's `actions` array (App.tsx:126). -/
structure ActionItem where
  call_id : Option String
  type : String
  label : String
  status : String
deriving DecidableEq, Repr

/-- `ChatMessage` (App.tsx:93). -/
structure ChatMessage where
  id : Option String := none
  role : String
  text : Option String := none
  type : Option String := none
  row_type : Option String := none
  plan_data : Option PlanData := none
  step_data : Option StepData := none
  tool_data : Option ToolData := none
  ttsStatus : Option String := none
  actions : List ActionItem := []
deriving DecidableEq, Repr

/-! ## Timeline helper functions (App.tsx:530-615) -/

/-- Inner loop of `updateStepStatusInTimeline` (App.tsx:606-611): find the
first step with the given id and replace its status; leave the list
unchanged when no step matches. -/
def setStepStatus (step_id status : String) : List StepNode → List StepNode
  | [] => []
  | st :: rest =>
      if st.id == step_id then { st with status := status } :: rest
      else st :: setStepStatus step_id status rest

/-- Inner loop of `addToTimeline` when a `step_id` is present
(App.tsx:551-562): append the log to the first step with that id, creating
the step (title `Step <id>`, status `pending`) at the end when absent. -/
def addLogToSteps (step_id : String) (log : LogData) : List StepNode → List StepNode
  | [] => [{ id := step_id, title := "Step " ++ step_id, status := "pending", logs := [log] }]
  | st :: rest =>
      if st.id == step_id then { st with logs := st.logs ++ [log] } :: rest
      else st :: addLogToSteps step_id log rest

/-- Apply a log to one interaction node (App.tsx:551-565): under the named
step when `step_id` is present, otherwise to the node's orphan `logs`. -/
def applyLogToNode (log : LogData) (step_id : Option String) (node : InteractionNode) : InteractionNode :=
  match step_id with
  | some sid => { node with steps := addLogToSteps sid log node.steps }
  | none => { node with logs := node.logs ++ [log] }

/-- The upsert skeleton of `addToTimeline` (App.tsx:536-546): update the
first node whose id matches, or append `f fresh` when none does. -/
def insertOrUpdateNode (targetId : String) (fresh : InteractionNode)
    (f : InteractionNode → InteractionNode) : List InteractionNode → List InteractionNode
  | [] => [f fresh]
  | n :: rest =>
      if n.id == targetId then f n :: rest
      else n :: insertOrUpdateNode targetId fresh f rest

/-- `addToTimeline` (App.tsx:530-569). -/
def addToTimeline (log : LogData) (interaction_id step_id : Option String)
    (timeline : List InteractionNode) : List InteractionNode :=
  let targetId := interaction_id.getD "SYSTEM"
  let fresh : InteractionNode :=
    { id := targetId,
      title := if targetId == "SYSTEM" then "System Events" else "Active Task",
      timestamp := log.timestamp,
      steps := [], plan := none, logs := [] }
  insertOrUpdateNode targetId fresh (applyLogToNode log step_id) timeline

/-- Step reconciliation of `updateTimelinePlan` (App.tsx:583-588): the new
step list is built from the incoming plan's steps; a step whose id already
exists keeps everything but title and status (in particular its logs), a
new id starts with empty logs. -/
def reconcileSteps (existingSteps : List StepNode) (planSteps : List PlanStep) : List StepNode :=
  planSteps.map (fun ps =>
    match existingSteps.find? (fun es => es.id == ps.id) with
    | some existing => { existing with title := ps.title, status := ps.status }
    | none => { id := ps.id, title := ps.title, status := ps.status, logs := [] })

/-- Update the first node whose id matches; return the list unchanged when
none does (the `nodeIndex === -1` early return of App.tsx:577). -/
def updateNodeById (targetId : String) (f : InteractionNode → InteractionNode) :
    List InteractionNode → List InteractionNode
  | [] => []
  | n :: rest =>
      if n.id == targetId then f n :: rest
      else n :: updateNodeById targetId f rest

/-- `updateTimelinePlan` (App.tsx:571-596). -/
def updateTimelinePlan (plan : Option Plan) (interaction_id : Option String)
    (timeline : List InteractionNode) : List InteractionNode :=
  match plan with
  | none => timeline
  | some p =>
      match timeline with
      | [] => timeline
      | _ =>
          let targetId :=
            interaction_id.getD ((timeline.getLast?.map InteractionNode.id).getD "new_task")
          updateNodeById targetId
            (fun node =>
              { node with
                title := "Task: " ++ p.refined_goal.getD "Unknown",
                plan := some p,
                steps := reconcileSteps node.steps p.steps })
            timeline

/-- `updateStepStatusInTimeline` (App.tsx:598-615). -/
def updateStepStatusInTimeline (step_id status : String) (interaction_id : Option String)
    (timeline : List InteractionNode) : List InteractionNode :=
  timeline.map (fun node =>
    match interaction_id with
    | some iid =>
        if node.id == iid then { node with steps := setStepStatus step_id status node.steps }
        else node
    | none => { node with steps := setStepStatus step_id status node.steps })

/-! ## Session state and events (App.tsx:492-839) -/

/-- The mutable session state of the webview App component: the pieces of
React state the onMessage handler writes (App.tsx:493-507).  The view
projection (rendering) is excluded. -/
structure AppState where
  status : String
  messages : List ChatMessage
  isRecording : Bool
  isSpeaking : Bool
  currentPlan : Option Plan
  timeline : List InteractionNode
  systemStatus : Option String
deriving DecidableEq, Repr

/-- Initial React state (App.tsx:494-507). -/
def initialState : AppState :=
  { status := "Ready", messages := [], isRecording := false, isSpeaking := false,
    currentPlan := none, timeline := [], systemStatus := none }

/-- Payload of a `step_start` event (`msg.payload || msg`). -/
structure StepStartPayload where
  id : Option String := none
  title : Option String := none
  description : Option String := none
deriving DecidableEq, Repr

/-- Payload of an `update_step` command.  The handler guards on
`msg.payload && msg.payload.id` (App.tsx:790); an event failing that guard
is embedded as `none`. -/
structure StepUpdatePayload where
  id : String
  status : String
deriving DecidableEq, Repr

/-- The inbound messages handled by the onMessage handler (App.tsx:693-821)
that mutate session state.  Command messages (`type: "command"`) appear as
one constructor per nested `command` value.  `logId`/`timestamp` carry the
values of `Date.now().toString()` and `toLocaleTimeString()` read when the
event is processed.  `tool_usage` (forwarded to the extension host),
`tts_status` (per-message TTS display state) and unrecognized types leave
the state modeled here unchanged and are collected under `unhandled`. -/
inductive Event where
  | status (status : Option String)
  | response (text : Option String) (is_delta : Bool) (id : Option String)
  | transcript (text : Option String)
  | error (message errField : Option String) (interaction_id : Option String) (logId timestamp : String)
  | plan_created (payload : Plan)
  | step_start (payload : StepStartPayload)
  | step_complete (id : Option String)
  | tool_start (tool_name action_label input_data call_id : Option String)
  | tool_end (call_id action_status : Option String)
  | stop_recording
  | update_plan (payload : Option Plan) (interaction_id : Option String) (logId timestamp : String)
  | request_approval (payload : Option Plan) (interaction_id : Option String) (logId timestamp : String)
  | update_step (payload : Option StepUpdatePayload) (interaction_id : Option String) (logId timestamp : String)
  | system_status (payload : String) (logId timestamp : String)
  | debug (category : Option String) (data : String) (interaction_id step_id : Option String) (logId timestamp : String)
  | tts_audio
  | unhandled
deriving DecidableEq, Repr

/-- `processAgentResponse` (App.tsx:878-887). -/
def processAgentResponse (msgs : List ChatMessage) (text : String) (isDelta : Bool)
    (id : Option String) : List ChatMessage :=
  match msgs.getLast? with
  | some lastMsg =>
      if isDelta && lastMsg.role == "agent" && lastMsg.type == some "text" then
        msgs.dropLast ++
          [{ lastMsg with
              text := some (lastMsg.text.getD "" ++ text),
              id := id.orElse (fun _ => lastMsg.id) }]
      else msgs ++ [{ role := "agent", text := some text, type := some "text", id := id }]
  | none => msgs ++ [{ role := "agent", text := some text, type := some "text", id := id }]

/-- The STEP_UPDATE log entry appended by the `update_step` command
(App.tsx:797); the stored payload object is opaque here. -/
def stepUpdateLog (logId timestamp : String) : LogData :=
  { id := logId, timestamp := timestamp, type := "STEP_UPDATE", category := none, payload := "" }

/-- One step of the session reducer: the effect of one inbound message on
the session state, following the onMessage handler branch for its type
(App.tsx:693-821).  Side channels that leave this state untouched
(console logging, `vscode.postMessage`, TTS timers) are dropped; the
human-readable tool label built by `mapToolToHuman` is abbreviated to the
raw tool name, as no property here inspects label text. -/
def applyEvent (s : AppState) (e : Event) : AppState :=
  match e with
  | Event.status st => { s with status := st.getD "Ready" }
  | Event.response txt is_delta mid =>
      match txt with
      | none => s
      | some t =>
          if t == "" then s
          else { s with messages := processAgentResponse s.messages t is_delta mid }
  | Event.transcript txt =>
      match txt with
      | none => s
      | some t =>
          if t == "" then s
          else
            if s.messages.getLast?.any (fun m => m.role == "user" && m.text == some t) then s
            else { s with messages := s.messages ++ [{ role := "user", text := some t, type := some "text" }] }
  | Event.error message errField iid lid ts =>
      let shown := (message.orElse (fun _ => errField)).getD "undefined"
      { s with
        messages := s.messages ++ [{ role := "agent", text := some (" Error: " ++ shown), type := some "text" }],
        timeline := addToTimeline
          { id := lid, timestamp := ts, type := "ERROR", category := none, payload := shown }
          iid none s.timeline }
  | Event.plan_created p =>
      { s with
        messages := s.messages ++
          [{ role := "agent", type := some "plan_created", row_type := some "plan_container",
             plan_data := some { goal := p.refined_goal, steps := p.steps, isCollapsed := true } }] }
  | Event.step_start p =>
      let collapsedPrev := s.messages.map (fun m =>
        if m.row_type == some "step_container" && m.step_data.isSome then
          { m with step_data := m.step_data.map (fun d => { d with isCollapsed := true }) }
        else m)
      { s with
        messages := collapsedPrev ++
          [{ role := "agent", type := some "step_start", row_type := some "step_container",
             step_data := some { id := p.id, title := p.title, description := p.description,
                                 status := "in_progress", isCollapsed := false } }] }
  | Event.step_complete sid =>
      { s with
        messages := s.messages.map (fun m =>
          if m.row_type == some "step_container" && m.step_data.bind StepData.id == sid then
            { m with step_data := m.step_data.map (fun d => { d with status := "done", isCollapsed := true }) }
          else m) }
  | Event.tool_start tool_name action_label input_data cid =>
      let humanLabel :=
        match tool_name with
        | some n => n
        | none => action_label.getD "Tool Execution"
      { s with
        messages := s.messages ++
          [{ role := "agent", row_type := some "tool_trace",
             tool_data := some { label := humanLabel, name := tool_name, args := input_data, status := "running" },
             actions := [{ call_id := cid, type := "tool_start", label := humanLabel, status := "running" }] }] }
  | Event.tool_end cid astatus =>
      { s with
        messages := s.messages.map (fun m =>
          if m.row_type == some "tool_trace" && (m.actions.head?.bind ActionItem.call_id) == cid then
            { m with tool_data := m.tool_data.map (fun td => { td with status := astatus.getD "success" }) }
          else m) }
  | Event.stop_recording => { s with isRecording := false, status := "Ready" }
  | Event.update_plan payload iid lid ts =>
      { s with
        currentPlan := payload,
        timeline := updateTimelinePlan payload iid
          (addToTimeline { id := lid, timestamp := ts, type := "PLAN_UPDATE", category := none, payload := "" }
            iid none s.timeline) }
  | Event.request_approval payload iid lid ts =>
      { s with
        currentPlan := payload,
        status := "waiting_approval",
        timeline := updateTimelinePlan payload iid
          (addToTimeline { id := lid, timestamp := ts, type := "PLAN_APPROVAL_NEEDED", category := none, payload := "" }
            iid none s.timeline) }
  | Event.update_step payload iid lid ts =>
      match payload with
      | none => s
      | some p =>
          { s with
            currentPlan := s.currentPlan.map (fun pl =>
              { pl with steps := pl.steps.map (fun st =>
                  if st.id == p.id then { st with status := p.status } else st) }),
            timeline := addToTimeline (stepUpdateLog lid ts) iid (some p.id)
              (updateStepStatusInTimeline p.id p.status iid s.timeline) }
  | Event.system_status payload lid ts =>
      { s with
        systemStatus := some payload,
        timeline := addToTimeline
          { id := lid, timestamp := ts, type := "SYS_STATUS", category := none, payload := payload }
          (some "SYSTEM") none s.timeline }
  | Event.debug category data iid sid lid ts =>
      { s with
        timeline := addToTimeline
          { id := lid, timestamp := ts, type := "DEBUG", category := category, payload := data }
          iid sid s.timeline }
  | Event.tts_audio => { s with isSpeaking := true }
  | Event.unhandled => s

/-- Fold a sequence of inbound messages over the session state, in delivery
order. -/
def applyEvents (s : AppState) (es : List Event) : AppState :=
  es.foldl applyEvent s

/-! ## Host tool bridge (chatViewProvider.ts:163-192) -/

/-- A message posted from the extension host back to the webview. -/
structure PostedMsg where
  type : String
  call_id : String
  output : String
deriving DecidableEq, Repr

/-- Outcome of `await this._handleToolUsage(data)`: either the value it
fulfilled with, or the `err.message` of the exception it threw. -/
inductive ExecOutcome where
  | ok (result : String)
  | err (message : String)
deriving DecidableEq, Repr

/-- The `tool_usage` case of the host's onDidReceiveMessage handler
(chatViewProvider.ts:163-192): the list of messages it posts to the
webview.  Both the success path (line 170) and the catch path (line 183)
first check that the webview view is still available; `viewAvailable`
models that check (`this._view` is assigned in resolveWebviewView before
the handler is registered and is never cleared, so within a session it is
always true). -/
def toolUsageCase (viewAvailable : Bool) (call_id : String) (outcome : ExecOutcome) : List PostedMsg :=
  match outcome with
  | ExecOutcome.ok r =>
      if viewAvailable then [{ type := "tool_result", call_id := call_id, output := r }] else []
  | ExecOutcome.err m =>
      if viewAvailable then [{ type := "tool_result", call_id := call_id, output := "Error: " ++ m }] else []

/-! ## Concrete scenario inputs used by individual claims -/

/-- The event sequence of example scenario 2 of the specification:
plan_created with goal G and one pending step 1, then step_start for step
1, then the update_step command setting step 1 to done. -/
def c2Events : List Event :=
  [ Event.plan_created
      { refined_goal := some "G",
        steps := [{ id := "1", title := "T1", description := "", status := "pending" }] },
    Event.step_start { id := some "1" },
    Event.update_step (some { id := "1", status := "done" }) none "L1" "t1" ]

/-- Does a session state satisfy what the scenario-2 claim asserts: exactly
one Interaction in the timeline, carrying a plan whose goal is G, with
exactly one step, of id 1 and status done. -/
def c2ClaimHolds (s : AppState) : Bool :=
  match s.timeline with
  | [n] =>
      (n.plan.any (fun p => p.refined_goal == some "G")) &&
      (match n.steps with
       | [st] => st.id == "1" && st.status == "done"
       | _ => false)
  | _ => false

/-- A session whose timeline holds one interaction `A` that contains a step
`1` (used against the idempotence claim). -/
def c3State : AppState :=
  { initialState with
    timeline := [{ id := "A", timestamp := "t0", title := "Active Task",
                   steps := [{ id := "1", title := "Step 1", status := "pending", logs := [] }],
                   plan := none, logs := [] }] }

/-- The update_step command event used against the idempotence claim. -/
def c3Event : Event :=
  Event.update_step (some { id := "1", status := "done" }) none "L1" "t1"

/-! ## Projections and predicates used by the theorems -/

/-- A session whose timeline holds the SYSTEM interaction with a pending
step `1` (the addressed interaction of an update_step without
interaction_id), used to witness the amended idempotence claim. -/
def c3WitnessState : AppState :=
  { initialState with
    timeline := [{ id := "SYSTEM", timestamp := "t0", title := "System Events",
                   steps := [{ id := "1", title := "Step 1", status := "pending", logs := [] }],
                   plan := none, logs := [] }] }

/-- Everything observable about a step except its logs. -/
def stepNoLogs (st : StepNode) : String × String × String :=
  (st.id, st.title, st.status)

/-- Everything observable about one interaction except log entries. -/
def nodeNoLogs (n : InteractionNode) : String × String × List (String × String × String) :=
  (n.id, n.title, n.steps.map stepNoLogs)

/-- Everything observable about the timeline except log entries:
interaction ids and titles, and each step's id, title and status. -/
def timelineNoLogs (tl : List InteractionNode) : List (String × String × List (String × String × String)) :=
  tl.map nodeNoLogs

/-- The interaction ids of the timeline, in order. -/
def timelineIds (tl : List InteractionNode) : List String :=
  tl.map (fun n => n.id)

/-- Number of log entries of the first step with id `S` (0 when absent). -/
def stepLogCount (S : String) (steps : List StepNode) : Nat :=
  match steps.find? (fun x => x.id == S) with
  | some x => x.logs.length
  | none => 0

/-- Number of log entries of the first step with id `S` inside the first
interaction with id `targetId` (0 when either is absent). -/
def targetStepLogCount (targetId S : String) (tl : List InteractionNode) : Nat :=
  match tl.find? (fun n => n.id == targetId) with
  | some n => stepLogCount S n.steps
  | none => 0

/-- The first interaction with id `targetId` exists and contains a step
with id `S`. -/
def targetStepExists (targetId S : String) (tl : List InteractionNode) : Bool :=
  match tl.find? (fun n => n.id == targetId) with
  | some n => n.steps.any (fun st => st.id == S)
  | none => false

/-- The first step with id `S` of a step list, if any, already carries
status `st`. -/
def stepsSettled (S st : String) (steps : List StepNode) : Bool :=
  match steps.find? (fun x => x.id == S) with
  | some x => x.status == st
  | none => true

/-- The first step named `S` of one interaction, if any, already carries
status `st`. -/
def firstStepSettled (S st : String) (n : InteractionNode) : Bool :=
  stepsSettled S st n.steps

/-- Per-interaction settledness condition, restricted by the event's
interaction_id filter exactly as `updateStepStatusInTimeline` restricts
its update. -/
def settledPred (S st : String) : Option String → InteractionNode → Bool
  | some i, n => if n.id == i then firstStepSettled S st n else true
  | none, n => firstStepSettled S st n

/-- In every interaction that `updateStepStatusInTimeline S st iid` would
touch, the first step named `S` (if any) already carries status `st`. -/
def stepStatusSettled (S st : String) (iid : Option String) (tl : List InteractionNode) : Bool :=
  tl.all (settledPred S st iid)

theorem wsApply_unclean_attempts (c : WSClient) :
    (wsApply c WSEvent.oncloseUncleanCb).1.reconnectAttempts = c.reconnectAttempts + 1 := rfl

theorem wsApply_unclean_delay (c : WSClient) :
    (wsApply c WSEvent.oncloseUncleanCb).2 = some (reconnectDelay c.reconnectAttempts) := rfl

/-- The delays scheduled by a run of `N` consecutive unclean closes, starting
from attempt counter `a`, are `reconnectDelay a, reconnectDelay (a+1), …`. -/
theorem wsRun_uncleanCloses (N : Nat) :
    ∀ c : WSClient,
      (wsRun c (List.replicate N WSEvent.oncloseUncleanCb)).2
        = (List.range N).map (fun k => reconnectDelay (c.reconnectAttempts + k)) := by
  induction N with
  | zero => intro c; rfl
  | succ n ih =>
      intro c
      rw [List.replicate_succ]
      show (reconnectDelay c.reconnectAttempts) ::
          (wsRun (wsApply c WSEvent.oncloseUncleanCb).1 (List.replicate n WSEvent.oncloseUncleanCb)).2
        = _
      rw [ih, wsApply_unclean_attempts, List.range_succ_eq_map, List.map_cons, List.map_map]
      refine congrArg₂ _ (by simp) ?_
      exact List.map_congr_left (fun k _ => by simp [Nat.add_comm, Nat.add_left_comm])

/-- C1: For every run of N consecutive unclean closes with no intervening
successful open, the delay scheduled before the Nth reconnect attempt is
min(1000 * 2^(N-1), 10000) ms (base 1000 ms, maxDelay 10000 ms), and a
successful connection (onopen) resets the attempt counter to 0, so the
delay after the next unclean close is again 1000 ms. -/
theorem c1_reconnect_backoff (c c' : WSClient) (N : Nat)
    (h0 : c.reconnectAttempts = 0) (hN : 1 ≤ N) :
    ((wsRun c (List.replicate N WSEvent.oncloseUncleanCb)).2)[N - 1]?
        = some (min (1000 * 2 ^ (N - 1)) 10000)
    ∧ (wsApply c' WSEvent.onopenCb).1.reconnectAttempts = 0
    ∧ (wsRun (wsApply c' WSEvent.onopenCb).1 [WSEvent.oncloseUncleanCb]).2 = [1000] := by
  refine ⟨?_, rfl, ?_⟩
  · rw [wsRun_uncleanCloses, List.getElem?_map, List.getElem?_range (by omega : N - 1 < N)]
    simp [reconnectDelay, maxReconnectDelay, h0]
  · show [reconnectDelay 0] = [1000]
    rfl

theorem c1_reconnect_backoff_witness :
    ((wsRun freshClient (List.replicate 3 WSEvent.oncloseUncleanCb)).2)[3 - 1]?
        = some (min (1000 * 2 ^ (3 - 1)) 10000)
    ∧ (wsApply freshClient WSEvent.onopenCb).1.reconnectAttempts = 0
    ∧ (wsRun (wsApply freshClient WSEvent.onopenCb).1 [WSEvent.oncloseUncleanCb]).2 = [1000] :=
  c1_reconnect_backoff freshClient freshClient 3 rfl (by decide)

/-- C6: Calling send with no open physical connection (socket absent or not
in the OPEN state) transmits nothing, buffers nothing and leaves the whole
client state unchanged; the `WSClient` state has no queue field at all,
mirroring the source class. -/
theorem c6_send_without_connection (c : WSClient) (msg : String)
    (h : ∀ sock, c.ws = some sock → sock.readyState ≠ ReadyState.OPEN) :
    c.send msg = c := by
  cases hws : c.ws with
  | none => simp [WSClient.send, hws]
  | some sock => simp [WSClient.send, hws, h sock hws]

theorem c6_send_without_connection_witness :
    WSClient.send freshClient "hello" = freshClient :=
  c6_send_without_connection freshClient "hello" (fun _ hsock => nomatch hsock)

/-- C7: connect() has no in-flight guard: a second connect() issued while
the first attempt is still outstanding constructs a second WebSocket and
only drops the reference to the first, leaving two physical connection
attempts outstanding at once. -/
theorem c7_double_connect_eval :
    outstandingAttempts (WSClient.connect (WSClient.connect freshClient)) = 2 := rfl

/-- C8: For every tool_usage message handled by the host while its webview
view is available (which the source guarantees, since `_view` is assigned
before the handler is registered and never cleared), exactly one
tool_result is posted back, it carries the same call_id, and when the
capability execution throws, the posted output is the string
`Error: <message>`, framed exactly like a success. -/
theorem c8_tool_result_exactly_once (viewAvailable : Bool) (cid : String) (outcome : ExecOutcome)
    (h : viewAvailable = true) :
    (toolUsageCase viewAvailable cid outcome).length = 1
    ∧ (toolUsageCase viewAvailable cid outcome).all
        (fun p => p.type == "tool_result" && p.call_id == cid) = true
    ∧ ∀ m : String, outcome = ExecOutcome.err m →
        toolUsageCase viewAvailable cid outcome
          = [{ type := "tool_result", call_id := cid, output := "Error: " ++ m }] := by
  subst h
  cases outcome with
  | ok r =>
      refine ⟨rfl, by simp [toolUsageCase], ?_⟩
      intro m hm
      exact ExecOutcome.noConfusion hm
  | err m0 =>
      refine ⟨rfl, by simp [toolUsageCase], ?_⟩
      intro m hm
      injection hm with hmsg
      subst hmsg
      rfl

theorem c8_tool_result_exactly_once_witness :
    (toolUsageCase true "c1" (ExecOutcome.err "boom")).length = 1
    ∧ (toolUsageCase true "c1" (ExecOutcome.err "boom")).all
        (fun p => p.type == "tool_result" && p.call_id == "c1") = true
    ∧ ∀ m : String, ExecOutcome.err "boom" = ExecOutcome.err m →
        toolUsageCase true "c1" (ExecOutcome.err "boom")
          = [{ type := "tool_result", call_id := "c1", output := "Error: " ++ m }] :=
  c8_tool_result_exactly_once true "c1" (ExecOutcome.err "boom") rfl

/-! ## Helper lemmas about the timeline helpers -/

theorem list_map_eq_self {α : Type} {f : α → α} :
    ∀ {l : List α}, (∀ x ∈ l, f x = x) → l.map f = l
  | [], _ => rfl
  | x :: xs, h => by
      rw [List.map_cons, h x (List.mem_cons_self x xs),
        list_map_eq_self (fun y hy => h y (List.mem_cons_of_mem x hy))]

theorem setStepStatus_not_found (S st : String) :
    ∀ steps : List StepNode, (∀ x ∈ steps, (x.id == S) = false) →
      setStepStatus S st steps = steps
  | [], _ => rfl
  | x :: xs, h => by
      have hx := h x (List.mem_cons_self x xs)
      simp only [setStepStatus, hx, Bool.false_eq_true, if_false]
      exact congrArg (List.cons x)
        (setStepStatus_not_found S st xs (fun y hy => h y (List.mem_cons_of_mem x hy)))

theorem updateStepStatusInTimeline_not_found (S st : String) (iid : Option String)
    (tl : List InteractionNode)
    (h : ∀ n ∈ tl, ∀ x ∈ n.steps, (x.id == S) = false) :
    updateStepStatusInTimeline S st iid tl = tl := by
  cases iid with
  | none =>
      unfold updateStepStatusInTimeline
      apply list_map_eq_self
      intro n hn
      show { n with steps := setStepStatus S st n.steps } = n
      rw [setStepStatus_not_found S st n.steps (h n hn)]
  | some i =>
      unfold updateStepStatusInTimeline
      apply list_map_eq_self
      intro n hn
      show (if (n.id == i) = true then { n with steps := setStepStatus S st n.steps } else n) = n
      by_cases hi : (n.id == i) = true
      · rw [if_pos hi, setStepStatus_not_found S st n.steps (h n hn)]
      · rw [if_neg hi]

theorem any_id_addLogToSteps (S : String) (l : LogData) :
    ∀ steps : List StepNode, (addLogToSteps S l steps).any (fun x => x.id == S) = true
  | [] => by simp [addLogToSteps]
  | x :: xs => by
      by_cases hx : (x.id == S) = true
      · simp [addLogToSteps, hx]
      · simp only [Bool.not_eq_true] at hx
        simp [addLogToSteps, hx, any_id_addLogToSteps S l xs]

theorem targetStepExists_insertOrUpdate (t S : String) (l : LogData) (fresh : InteractionNode)
    (hfresh : fresh.id = t) :
    ∀ tl : List InteractionNode,
      targetStepExists t S (insertOrUpdateNode t fresh (applyLogToNode l (some S)) tl) = true
  | [] => by
      simp [insertOrUpdateNode, targetStepExists, applyLogToNode, hfresh,
        any_id_addLogToSteps]
  | n :: rest => by
      by_cases hn : (n.id == t) = true
      · simp [insertOrUpdateNode, targetStepExists, applyLogToNode, hn,
          any_id_addLogToSteps]
      · simp only [Bool.not_eq_true] at hn
        simp only [insertOrUpdateNode, hn, Bool.false_eq_true, if_false]
        simp only [targetStepExists] at targetStepExists_insertOrUpdate ⊢
        rw [List.find?_cons_of_neg _ (by simp [hn])]
        exact targetStepExists_insertOrUpdate t S l fresh hfresh rest

/-- Adding a log under step id S always leaves the addressed interaction
existing and containing a step with id S (creating both when absent). -/
theorem targetStepExists_addToTimeline (l : LogData) (iid : Option String) (S : String)
    (tl : List InteractionNode) :
    targetStepExists (iid.getD "SYSTEM") S (addToTimeline l iid (some S) tl) = true :=
  targetStepExists_insertOrUpdate (iid.getD "SYSTEM") S l _ rfl tl

/-- C2 fails on the code: applying the scenario-2 event sequence to the
empty session does NOT yield a timeline interaction carrying plan goal G
with step 1 done; plan_created and step_start never touch the timeline,
and the update_step command implicitly creates a pending step under a
SYSTEM interaction. -/
theorem c2_scenario_counterexample :
    c2ClaimHolds (applyEvents initialState c2Events) = false := rfl

/-- C2 (amended): applying the scenario-2 event sequence to the empty
session yields exactly one timeline Interaction, with id SYSTEM and no
plan, containing exactly one Step of id 1 whose status is `pending` and
which holds the single STEP_UPDATE log entry; the goal G and the step's
progress live in the conversational message list instead, as a plan
container with goal G followed by a step container for step 1 with status
`in_progress`. -/
theorem c2_scenario_amended :
    (applyEvents initialState c2Events).timeline
      = [{ id := "SYSTEM", timestamp := "t1", title := "System Events",
           steps := [{ id := "1", title := "Step 1", status := "pending",
                       logs := [{ id := "L1", timestamp := "t1", type := "STEP_UPDATE",
                                  category := none, payload := "" }] }],
           plan := none, logs := [] }]
    ∧ (applyEvents initialState c2Events).messages.map
        (fun m => (m.row_type, m.plan_data.map PlanData.goal,
                   m.step_data.map (fun d => (d.id, d.status))))
      = [(some "plan_container", some (some "G"), none),
         (some "step_container", none, some (some "1", "in_progress"))] :=
  ⟨rfl, rfl⟩

/-- C9: update_plan reconciliation by id: every incoming plan step takes
its title and status from the plan; when a step of the same id already
exists (first match) the reconciled step keeps that step's accumulated
logs (and id), and a step id new to the interaction starts with an empty
log list. -/
theorem c9_plan_reconciliation (existingSteps : List StepNode) (planSteps : List PlanStep)
    (i : Nat) (h : i < planSteps.length) :
    ∃ r : StepNode,
      (reconcileSteps existingSteps planSteps)[i]? = some r
      ∧ r.title = planSteps[i].title
      ∧ r.status = planSteps[i].status
      ∧ ((∃ ex, existingSteps.find? (fun es => es.id == planSteps[i].id) = some ex
            ∧ r.logs = ex.logs ∧ r.id = ex.id)
         ∨ (existingSteps.find? (fun es => es.id == planSteps[i].id) = none
            ∧ r.logs = [] ∧ r.id = planSteps[i].id)) := by
  have hget : planSteps[i]? = some planSteps[i] := List.getElem?_eq_getElem h
  cases hfind : existingSteps.find? (fun es => es.id == planSteps[i].id) with
  | some ex =>
      refine ⟨{ ex with title := planSteps[i].title, status := planSteps[i].status },
        ?_, rfl, rfl, Or.inl ⟨ex, rfl, rfl, rfl⟩⟩
      simp [reconcileSteps, List.getElem?_map, hget, hfind]
  | none =>
      refine ⟨{ id := planSteps[i].id, title := planSteps[i].title,
                status := planSteps[i].status, logs := [] },
        ?_, rfl, rfl, Or.inr ⟨rfl, rfl, rfl⟩⟩
      simp [reconcileSteps, List.getElem?_map, hget, hfind]

theorem c9_plan_reconciliation_witness :
    ∃ r : StepNode,
      (reconcileSteps
        [{ id := "1", title := "Old", status := "pending",
           logs := [{ id := "a", timestamp := "t", type := "DEBUG", category := none, payload := "p" }] }]
        [{ id := "1", title := "New", description := "d", status := "done" },
         { id := "2", title := "Fresh", description := "e", status := "pending" }])[0]? = some r
      ∧ r.title = "New"
      ∧ r.status = "done"
      ∧ ((∃ ex,
            ([{ id := "1", title := "Old", status := "pending",
                logs := [{ id := "a", timestamp := "t", type := "DEBUG", category := none, payload := "p" }] }] :
              List StepNode).find? (fun es => es.id == "1") = some ex
            ∧ r.logs = ex.logs ∧ r.id = ex.id)
         ∨ (([{ id := "1", title := "Old", status := "pending",
                logs := [{ id := "a", timestamp := "t", type := "DEBUG", category := none, payload := "p" }] }] :
              List StepNode).find? (fun es => es.id == "1") = none
            ∧ r.logs = [] ∧ r.id = "1")) :=
  c9_plan_reconciliation _ _ 0 (by decide)

theorem setStepStatus_find (S st : String) :
    ∀ steps : List StepNode,
      (setStepStatus S st steps).find? (fun x => x.id == S)
        = (steps.find? (fun x => x.id == S)).map (fun x => { x with status := st })
  | [] => rfl
  | x :: xs => by
      by_cases hx : (x.id == S) = true
      · simp [setStepStatus, hx, List.find?_cons]
      · simp only [Bool.not_eq_true] at hx
        simp [setStepStatus, hx, List.find?_cons, setStepStatus_find S st xs]

theorem stepsSettled_setStepStatus (S st : String) (steps : List StepNode) :
    stepsSettled S st (setStepStatus S st steps) = true := by
  unfold stepsSettled
  rw [setStepStatus_find]
  cases steps.find? (fun x => x.id == S) <;> simp

theorem setStepStatus_noop (S st : String) :
    ∀ steps : List StepNode, stepsSettled S st steps = true →
      setStepStatus S st steps = steps
  | [], _ => rfl
  | x :: xs, h => by
      by_cases hx : (x.id == S) = true
      · have hst : x.status = st := by
          unfold stepsSettled at h
          rw [List.find?_cons] at h
          simp only [hx] at h
          exact eq_of_beq h
        have hx2 : ({ x with status := st } : StepNode) = x := by
          cases x
          simp only at hst
          rw [hst]
        simp [setStepStatus, hx, hx2]
      · have h' : stepsSettled S st xs = true := by
          unfold stepsSettled at h ⊢
          rw [List.find?_cons] at h
          simp only [Bool.not_eq_true] at hx
          simpa [hx] using h
        simp only [Bool.not_eq_true] at hx
        simp [setStepStatus, hx, setStepStatus_noop S st xs h']

theorem setStepStatus_any (S st : String) :
    ∀ steps : List StepNode,
      (setStepStatus S st steps).any (fun x => x.id == S) = steps.any (fun x => x.id == S)
  | [] => rfl
  | x :: xs => by
      by_cases hx : (x.id == S) = true
      · simp [setStepStatus, hx]
      · simp only [Bool.not_eq_true] at hx
        simp [setStepStatus, hx, setStepStatus_any S st xs]

theorem addLogToSteps_find_of_any (S : String) (l : LogData) :
    ∀ steps : List StepNode, steps.any (fun x => x.id == S) = true →
      (addLogToSteps S l steps).find? (fun x => x.id == S)
        = (steps.find? (fun x => x.id == S)).map (fun x => { x with logs := x.logs ++ [l] })
  | [], h => by simp at h
  | x :: xs, h => by
      by_cases hx : (x.id == S) = true
      · simp [addLogToSteps, hx, List.find?_cons]
      · simp only [Bool.not_eq_true] at hx
        have h' : xs.any (fun x => x.id == S) = true := by
          simpa [hx] using h
        simp [addLogToSteps, hx, List.find?_cons, addLogToSteps_find_of_any S l xs h']

theorem addLogToSteps_map_stepNoLogs (S : String) (l : LogData) :
    ∀ steps : List StepNode, steps.any (fun x => x.id == S) = true →
      (addLogToSteps S l steps).map stepNoLogs = steps.map stepNoLogs
  | [], h => by simp at h
  | x :: xs, h => by
      by_cases hx : (x.id == S) = true
      · simp [addLogToSteps, hx, stepNoLogs]
      · simp only [Bool.not_eq_true] at hx
        have h' : xs.any (fun x => x.id == S) = true := by
          simpa [hx] using h
        simp [addLogToSteps, hx, addLogToSteps_map_stepNoLogs S l xs h']

theorem stepLogCount_addLogToSteps (S : String) (l : LogData) :
    ∀ steps : List StepNode,
      stepLogCount S (addLogToSteps S l steps) = stepLogCount S steps + 1
  | [] => by simp [addLogToSteps, stepLogCount]
  | x :: xs => by
      by_cases hx : (x.id == S) = true
      · unfold stepLogCount
        simp [addLogToSteps, hx, List.find?_cons]
      · simp only [Bool.not_eq_true] at hx
        unfold stepLogCount
        simp only [addLogToSteps, hx, Bool.false_eq_true, if_false, List.find?_cons]
        have := stepLogCount_addLogToSteps S l xs
        unfold stepLogCount at this
        simpa [hx] using this

theorem updateStepStatusInTimeline_noop (S st : String) (iid : Option String)
    (tl : List InteractionNode) (h : stepStatusSettled S st iid tl = true) :
    updateStepStatusInTimeline S st iid tl = tl := by
  unfold stepStatusSettled at h
  rw [List.all_eq_true] at h
  cases iid with
  | none =>
      unfold updateStepStatusInTimeline
      apply list_map_eq_self
      intro n hn
      have hset : stepsSettled S st n.steps = true := h n hn
      show { n with steps := setStepStatus S st n.steps } = n
      rw [setStepStatus_noop S st n.steps hset]
  | some i =>
      unfold updateStepStatusInTimeline
      apply list_map_eq_self
      intro n hn
      show (if (n.id == i) = true then { n with steps := setStepStatus S st n.steps } else n) = n
      by_cases hni : (n.id == i) = true
      · rw [if_pos hni]
        have hset : stepsSettled S st n.steps = true := by
          have hpred := h n hn
          simp only [settledPred, hni, if_true] at hpred
          exact hpred
        rw [setStepStatus_noop S st n.steps hset]
      · rw [if_neg hni]

theorem stepStatusSettled_after_upd (S st : String) (iid : Option String)
    (tl : List InteractionNode) :
    stepStatusSettled S st iid (updateStepStatusInTimeline S st iid tl) = true := by
  unfold stepStatusSettled updateStepStatusInTimeline
  rw [List.all_eq_true]
  intro n hn
  rw [List.mem_map] at hn
  obtain ⟨m, _, rfl⟩ := hn
  cases iid with
  | none => exact stepsSettled_setStepStatus S st m.steps
  | some i =>
      by_cases hmi : (m.id == i) = true
      · show settledPred S st (some i)
          (if (m.id == i) = true then { m with steps := setStepStatus S st m.steps } else m) = true
        rw [if_pos hmi]
        simp only [settledPred]
        rw [if_pos (show (({ m with steps := setStepStatus S st m.steps } : InteractionNode).id == i) = true from hmi)]
        exact stepsSettled_setStepStatus S st m.steps
      · show settledPred S st (some i)
          (if (m.id == i) = true then { m with steps := setStepStatus S st m.steps } else m) = true
        rw [if_neg hmi]
        simp only [settledPred]
        rw [if_neg hmi]

theorem find?_map_id_preserving (t : String) (g : InteractionNode → InteractionNode)
    (hg : ∀ n, (g n).id = n.id) :
    ∀ tl : List InteractionNode,
      (tl.map g).find? (fun n => n.id == t) = (tl.find? (fun n => n.id == t)).map g
  | [] => rfl
  | n :: rest => by
      rw [List.map_cons, List.find?_cons, List.find?_cons]
      have hgn : ((g n).id == t) = (n.id == t) := by rw [hg n]
      rw [hgn]
      cases hn : (n.id == t) with
      | true => rfl
      | false => exact find?_map_id_preserving t g hg rest

theorem targetStepExists_upd (t S st : String) (iid : Option String)
    (tl : List InteractionNode) :
    targetStepExists t S (updateStepStatusInTimeline S st iid tl) = targetStepExists t S tl := by
  unfold targetStepExists updateStepStatusInTimeline
  rw [find?_map_id_preserving t _ (fun n => by
    cases iid with
    | none => rfl
    | some i => by_cases hni : (n.id == i) = true <;> simp [hni])]
  cases hf : tl.find? (fun n => n.id == t) with
  | none => rfl
  | some n =>
      simp only [Option.map_some']
      cases iid with
      | none => exact setStepStatus_any S st n.steps
      | some i =>
          by_cases hni : (n.id == i) = true
          · simp only [hni, if_true]
            exact setStepStatus_any S st n.steps
          · simp only [hni, Bool.false_eq_true, if_false]

theorem stepsSettled_addLog (S st : String) (l : LogData) (steps : List StepNode)
    (hany : steps.any (fun x => x.id == S) = true)
    (hset : stepsSettled S st steps = true) :
    stepsSettled S st (addLogToSteps S l steps) = true := by
  unfold stepsSettled at hset ⊢
  rw [addLogToSteps_find_of_any S l steps hany]
  cases hf : steps.find? (fun x => x.id == S) with
  | none => simp
  | some x =>
      rw [hf] at hset
      simpa using hset

theorem settledPred_applyLog (S st : String) (iid : Option String) (l : LogData)
    (n : InteractionNode) (hany : n.steps.any (fun x => x.id == S) = true)
    (h : settledPred S st iid n = true) :
    settledPred S st iid (applyLogToNode l (some S) n) = true := by
  cases iid with
  | none => exact stepsSettled_addLog S st l n.steps hany h
  | some i =>
      simp only [settledPred] at h ⊢
      by_cases hni : (n.id == i) = true
      · rw [if_pos hni] at h
        rw [if_pos (show ((applyLogToNode l (some S) n).id == i) = true from hni)]
        exact stepsSettled_addLog S st l n.steps hany h
      · rw [if_neg (show ¬ ((applyLogToNode l (some S) n).id == i) = true from hni)]

theorem stepStatusSettled_insertOrUpdate (t S st : String) (iid : Option String)
    (l : LogData) (fresh : InteractionNode) :
    ∀ tl : List InteractionNode,
      targetStepExists t S tl = true →
      stepStatusSettled S st iid tl = true →
      stepStatusSettled S st iid (insertOrUpdateNode t fresh (applyLogToNode l (some S)) tl) = true
  | [], hex, _ => by simp [targetStepExists] at hex
  | n :: rest, hex, hset => by
      unfold stepStatusSettled at hset
      rw [List.all_cons, Bool.and_eq_true] at hset
      obtain ⟨hn1, hrest⟩ := hset
      by_cases hn : (n.id == t) = true
      · have hany : n.steps.any (fun x => x.id == S) = true := by
          unfold targetStepExists at hex
          rw [List.find?_cons] at hex
          simpa [hn] using hex
        unfold stepStatusSettled
        rw [show insertOrUpdateNode t fresh (applyLogToNode l (some S)) (n :: rest)
            = applyLogToNode l (some S) n :: rest from by simp [insertOrUpdateNode, hn]]
        rw [List.all_cons, Bool.and_eq_true]
        exact ⟨settledPred_applyLog S st iid l n hany hn1, hrest⟩
      · simp only [Bool.not_eq_true] at hn
        have hex2 : targetStepExists t S rest = true := by
          unfold targetStepExists at hex ⊢
          rw [List.find?_cons] at hex
          simpa [hn] using hex
        unfold stepStatusSettled
        rw [show insertOrUpdateNode t fresh (applyLogToNode l (some S)) (n :: rest)
            = n :: insertOrUpdateNode t fresh (applyLogToNode l (some S)) rest from by
            simp [insertOrUpdateNode, hn]]
        rw [List.all_cons, Bool.and_eq_true]
        exact ⟨hn1, stepStatusSettled_insertOrUpdate t S st iid l fresh rest hex2 hrest⟩

theorem timelineNoLogs_insertOrUpdate (t S : String) (l : LogData) (fresh : InteractionNode) :
    ∀ tl : List InteractionNode, targetStepExists t S tl = true →
      timelineNoLogs (insertOrUpdateNode t fresh (applyLogToNode l (some S)) tl)
        = timelineNoLogs tl
  | [], hex => by simp [targetStepExists] at hex
  | n :: rest, hex => by
      by_cases hn : (n.id == t) = true
      · have hany : n.steps.any (fun x => x.id == S) = true := by
          unfold targetStepExists at hex
          rw [List.find?_cons] at hex
          simpa [hn] using hex
        have hnode : nodeNoLogs (applyLogToNode l (some S) n) = nodeNoLogs n := by
          show (n.id, n.title, (addLogToSteps S l n.steps).map stepNoLogs)
            = (n.id, n.title, n.steps.map stepNoLogs)
          rw [addLogToSteps_map_stepNoLogs S l n.steps hany]
        unfold timelineNoLogs
        rw [show insertOrUpdateNode t fresh (applyLogToNode l (some S)) (n :: rest)
            = applyLogToNode l (some S) n :: rest from by simp [insertOrUpdateNode, hn]]
        rw [List.map_cons, List.map_cons, hnode]
      · simp only [Bool.not_eq_true] at hn
        have hex2 : targetStepExists t S rest = true := by
          unfold targetStepExists at hex ⊢
          rw [List.find?_cons] at hex
          simpa [hn] using hex
        unfold timelineNoLogs
        rw [show insertOrUpdateNode t fresh (applyLogToNode l (some S)) (n :: rest)
            = n :: insertOrUpdateNode t fresh (applyLogToNode l (some S)) rest from by
            simp [insertOrUpdateNode, hn]]
        rw [List.map_cons, List.map_cons]
        have hrec := timelineNoLogs_insertOrUpdate t S l fresh rest hex2
        unfold timelineNoLogs at hrec
        rw [hrec]

theorem targetStepLogCount_insertOrUpdate (t S : String) (l : LogData) (fresh : InteractionNode)
    (hfid : fresh.id = t) (hfsteps : fresh.steps = []) :
    ∀ tl : List InteractionNode,
      targetStepLogCount t S (insertOrUpdateNode t fresh (applyLogToNode l (some S)) tl)
        = targetStepLogCount t S tl + 1
  | [] => by
      unfold targetStepLogCount
      show (match List.find? (fun n => n.id == t) [applyLogToNode l (some S) fresh] with
        | some n => stepLogCount S n.steps
        | none => 0) = _
      rw [List.find?_cons]
      have hdiscr : ((applyLogToNode l (some S) fresh).id == t) = true := by
        show (fresh.id == t) = true
        rw [hfid]
        exact beq_self_eq_true t
      rw [hdiscr]
      show stepLogCount S (addLogToSteps S l fresh.steps) = _
      rw [hfsteps, stepLogCount_addLogToSteps]
      rfl
  | n :: rest => by
      unfold targetStepLogCount
      by_cases hn : (n.id == t) = true
      · rw [show insertOrUpdateNode t fresh (applyLogToNode l (some S)) (n :: rest)
            = applyLogToNode l (some S) n :: rest from by simp [insertOrUpdateNode, hn]]
        rw [List.find?_cons, List.find?_cons]
        have hdiscr : ((applyLogToNode l (some S) n).id == t) = true := hn
        rw [hdiscr, hn]
        show stepLogCount S (addLogToSteps S l n.steps) = stepLogCount S n.steps + 1
        exact stepLogCount_addLogToSteps S l n.steps
      · simp only [Bool.not_eq_true] at hn
        rw [show insertOrUpdateNode t fresh (applyLogToNode l (some S)) (n :: rest)
            = n :: insertOrUpdateNode t fresh (applyLogToNode l (some S)) rest from by
            simp [insertOrUpdateNode, hn]]
        rw [List.find?_cons, List.find?_cons]
        have hdiscr : ((n : InteractionNode).id == t) = false := hn
        rw [hdiscr]
        have hrec := targetStepLogCount_insertOrUpdate t S l fresh hfid hfsteps rest
        unfold targetStepLogCount at hrec
        exact hrec

theorem stepStatusSettled_addToTimeline (S st : String) (iid : Option String) (l : LogData)
    (tl : List InteractionNode)
    (hex : targetStepExists (iid.getD "SYSTEM") S tl = true)
    (hset : stepStatusSettled S st iid tl = true) :
    stepStatusSettled S st iid (addToTimeline l iid (some S) tl) = true :=
  stepStatusSettled_insertOrUpdate _ S st iid l _ tl hex hset

theorem timelineNoLogs_addToTimeline (S : String) (iid : Option String) (l : LogData)
    (tl : List InteractionNode)
    (hex : targetStepExists (iid.getD "SYSTEM") S tl = true) :
    timelineNoLogs (addToTimeline l iid (some S) tl) = timelineNoLogs tl :=
  timelineNoLogs_insertOrUpdate _ S l _ tl hex

theorem targetStepLogCount_addToTimeline (S : String) (iid : Option String) (l : LogData)
    (tl : List InteractionNode) :
    targetStepLogCount (iid.getD "SYSTEM") S (addToTimeline l iid (some S) tl)
      = targetStepLogCount (iid.getD "SYSTEM") S tl + 1 :=
  targetStepLogCount_insertOrUpdate (iid.getD "SYSTEM") S l
    { id := iid.getD "SYSTEM",
      title := if (iid.getD "SYSTEM") == "SYSTEM" then "System Events" else "Active Task",
      timestamp := l.timestamp, steps := [], plan := none, logs := [] }
    rfl rfl tl

theorem timelineIds_map_of_id_preserved (g : InteractionNode → InteractionNode)
    (hg : ∀ n, (g n).id = n.id) (tl : List InteractionNode) :
    timelineIds (tl.map g) = timelineIds tl := by
  unfold timelineIds
  rw [List.map_map]
  exact List.map_congr_left (fun n _ => hg n)

theorem timelineIds_updateNodeById (t : String) (f : InteractionNode → InteractionNode)
    (hf : ∀ n, (f n).id = n.id) :
    ∀ tl : List InteractionNode, timelineIds (updateNodeById t f tl) = timelineIds tl
  | [] => rfl
  | n :: rest => by
      by_cases hn : (n.id == t) = true
      · rw [show updateNodeById t f (n :: rest) = f n :: rest from by simp [updateNodeById, hn]]
        unfold timelineIds
        rw [List.map_cons, List.map_cons, hf n]
      · simp only [Bool.not_eq_true] at hn
        rw [show updateNodeById t f (n :: rest) = n :: updateNodeById t f rest from by
            simp [updateNodeById, hn]]
        unfold timelineIds
        rw [List.map_cons, List.map_cons]
        have hrec := timelineIds_updateNodeById t f hf rest
        unfold timelineIds at hrec
        rw [hrec]

theorem mem_timelineIds_insertOrUpdate (t : String) (fresh : InteractionNode)
    (f : InteractionNode → InteractionNode) (hf : ∀ n, (f n).id = n.id) (hfresh : fresh.id = t) :
    ∀ (tl : List InteractionNode) (x : String),
      x ∈ timelineIds (insertOrUpdateNode t fresh f tl) → x ∈ timelineIds tl ∨ x = t
  | [], x, hx => by
      right
      unfold timelineIds at hx
      simp only [insertOrUpdateNode, List.map_cons, List.map_nil] at hx
      rw [hf fresh, hfresh] at hx
      simpa using hx
  | n :: rest, x, hx => by
      by_cases hn : (n.id == t) = true
      · left
        rw [show insertOrUpdateNode t fresh f (n :: rest) = f n :: rest from by
            simp [insertOrUpdateNode, hn]] at hx
        unfold timelineIds at hx ⊢
        rw [List.map_cons] at hx
        rw [List.map_cons]
        rwa [hf n] at hx
      · simp only [Bool.not_eq_true] at hn
        rw [show insertOrUpdateNode t fresh f (n :: rest)
            = n :: insertOrUpdateNode t fresh f rest from by
            simp [insertOrUpdateNode, hn]] at hx
        unfold timelineIds at hx ⊢
        rw [List.map_cons, List.mem_cons] at hx
        rw [List.map_cons, List.mem_cons]
        cases hx with
        | inl h1 => exact Or.inl (Or.inl h1)
        | inr h2 =>
            cases mem_timelineIds_insertOrUpdate t fresh f hf hfresh rest x h2 with
            | inl hm => exact Or.inl (Or.inr hm)
            | inr he => exact Or.inr he

theorem nodup_insertOrUpdate (t : String) (fresh : InteractionNode)
    (f : InteractionNode → InteractionNode) (hf : ∀ n, (f n).id = n.id) (hfresh : fresh.id = t) :
    ∀ tl : List InteractionNode,
      (timelineIds tl).Nodup → (timelineIds (insertOrUpdateNode t fresh f tl)).Nodup
  | [], _ => by simp [insertOrUpdateNode, timelineIds]
  | n :: rest, h => by
      unfold timelineIds at h
      rw [List.map_cons, List.nodup_cons] at h
      obtain ⟨hnotin, hrest⟩ := h
      by_cases hn : (n.id == t) = true
      · rw [show insertOrUpdateNode t fresh f (n :: rest) = f n :: rest from by
            simp [insertOrUpdateNode, hn]]
        unfold timelineIds
        rw [List.map_cons, List.nodup_cons, hf n]
        exact ⟨hnotin, hrest⟩
      · simp only [Bool.not_eq_true] at hn
        rw [show insertOrUpdateNode t fresh f (n :: rest)
            = n :: insertOrUpdateNode t fresh f rest from by
            simp [insertOrUpdateNode, hn]]
        unfold timelineIds
        rw [List.map_cons, List.nodup_cons]
        constructor
        · intro hmem
          cases mem_timelineIds_insertOrUpdate t fresh f hf hfresh rest n.id hmem with
          | inl hm => exact hnotin hm
          | inr he =>
              rw [he] at hn
              simp at hn
        · exact nodup_insertOrUpdate t fresh f hf hfresh rest hrest

theorem nodup_addToTimeline (l : LogData) (iid sid : Option String) (tl : List InteractionNode)
    (h : (timelineIds tl).Nodup) : (timelineIds (addToTimeline l iid sid tl)).Nodup :=
  nodup_insertOrUpdate (iid.getD "SYSTEM")
    { id := iid.getD "SYSTEM",
      title := if (iid.getD "SYSTEM") == "SYSTEM" then "System Events" else "Active Task",
      timestamp := l.timestamp, steps := [], plan := none, logs := [] }
    (applyLogToNode l sid) (fun n => by cases sid <;> rfl) rfl tl h

theorem timelineIds_updateTimelinePlan (p : Option Plan) (iid : Option String)
    (tl : List InteractionNode) :
    timelineIds (updateTimelinePlan p iid tl) = timelineIds tl := by
  cases p with
  | none => rfl
  | some pl =>
      cases tl with
      | nil => rfl
      | cons n rest =>
          show timelineIds (updateNodeById
              (iid.getD (((n :: rest).getLast?.map InteractionNode.id).getD "new_task"))
              (fun node =>
                { node with
                  title := "Task: " ++ pl.refined_goal.getD "Unknown",
                  plan := some pl,
                  steps := reconcileSteps node.steps pl.steps })
              (n :: rest)) = timelineIds (n :: rest)
          exact timelineIds_updateNodeById
            (iid.getD (((n :: rest).getLast?.map InteractionNode.id).getD "new_task"))
            (fun node =>
              { node with
                title := "Task: " ++ pl.refined_goal.getD "Unknown",
                plan := some pl,
                steps := reconcileSteps node.steps pl.steps })
            (fun _m => rfl) (n :: rest)

theorem timelineIds_upd (S st : String) (iid : Option String) (tl : List InteractionNode) :
    timelineIds (updateStepStatusInTimeline S st iid tl) = timelineIds tl :=
  timelineIds_map_of_id_preserved _
    (fun n => by
      cases iid with
      | none => rfl
      | some i => by_cases hni : (n.id == i) = true <;> simp [hni])
    tl

theorem applyEvent_preserves_nodup (s : AppState) (e : Event)
    (h : (timelineIds s.timeline).Nodup) :
    (timelineIds (applyEvent s e).timeline).Nodup := by
  cases e with
  | status st => exact h
  | response txt d mid =>
      cases txt with
      | none => exact h
      | some t =>
          simp only [applyEvent]
          split
          · exact h
          · exact h
  | transcript txt =>
      cases txt with
      | none => exact h
      | some t =>
          simp only [applyEvent]
          split
          · exact h
          · split
            · exact h
            · exact h
  | error message errField iid lid ts => exact nodup_addToTimeline _ iid none s.timeline h
  | plan_created p => exact h
  | step_start p => exact h
  | step_complete sid => exact h
  | tool_start a b c d => exact h
  | tool_end a b => exact h
  | stop_recording => exact h
  | update_plan p iid lid ts =>
      show (timelineIds (updateTimelinePlan p iid
        (addToTimeline { id := lid, timestamp := ts, type := "PLAN_UPDATE", category := none, payload := "" }
          iid none s.timeline))).Nodup
      rw [timelineIds_updateTimelinePlan]
      exact nodup_addToTimeline _ iid none s.timeline h
  | request_approval p iid lid ts =>
      show (timelineIds (updateTimelinePlan p iid
        (addToTimeline { id := lid, timestamp := ts, type := "PLAN_APPROVAL_NEEDED", category := none, payload := "" }
          iid none s.timeline))).Nodup
      rw [timelineIds_updateTimelinePlan]
      exact nodup_addToTimeline _ iid none s.timeline h
  | update_step p iid lid ts =>
      cases p with
      | none => exact h
      | some pl =>
          show (timelineIds (addToTimeline (stepUpdateLog lid ts) iid (some pl.id)
            (updateStepStatusInTimeline pl.id pl.status iid s.timeline))).Nodup
          apply nodup_addToTimeline
          rw [timelineIds_upd]
          exact h
  | system_status payload lid ts => exact nodup_addToTimeline _ (some "SYSTEM") none s.timeline h
  | debug cat data iid sid lid ts => exact nodup_addToTimeline _ iid sid s.timeline h
  | tts_audio => exact h
  | unhandled => exact h

/-- C3 fails on the code: re-applying update_step {id 1, status done} to a
session that has step 1 in its timeline changes the observable step state:
each application appends a STEP_UPDATE log entry to the addressed step
(and, because the event names no interaction, the first application
implicitly created a pending copy of the step under SYSTEM that the second
application then advances). -/
theorem c3_idempotence_counterexample :
    (applyEvent (applyEvent c3State c3Event) c3Event).timeline.map
        (fun n => (n.id, n.steps.map (fun stp => (stp.id, stp.status, stp.logs.length))))
      ≠ (applyEvent c3State c3Event).timeline.map
        (fun n => (n.id, n.steps.map (fun stp => (stp.id, stp.status, stp.logs.length)))) := by
  decide

/-- C3 (amended): when the addressed interaction (interaction_id, or
SYSTEM when the event carries none) already contains a step with id S,
applying update_step {id: S, status: "done"} twice yields the same step
statuses, titles and interactions as applying it once; the logs however
differ: the second application appends exactly one more STEP_UPDATE log
entry to the addressed step. -/
theorem c3_idempotence_amended (s : AppState) (S st : String) (iid : Option String)
    (lid1 ts1 lid2 ts2 : String)
    (h : targetStepExists (iid.getD "SYSTEM") S s.timeline = true) :
    timelineNoLogs (applyEvent
        (applyEvent s (Event.update_step (some { id := S, status := st }) iid lid1 ts1))
        (Event.update_step (some { id := S, status := st }) iid lid2 ts2)).timeline
      = timelineNoLogs
          (applyEvent s (Event.update_step (some { id := S, status := st }) iid lid1 ts1)).timeline
    ∧ targetStepLogCount (iid.getD "SYSTEM") S
        (applyEvent
          (applyEvent s (Event.update_step (some { id := S, status := st }) iid lid1 ts1))
          (Event.update_step (some { id := S, status := st }) iid lid2 ts2)).timeline
      = targetStepLogCount (iid.getD "SYSTEM") S
          (applyEvent s (Event.update_step (some { id := S, status := st }) iid lid1 ts1)).timeline
        + 1 := by
  have hex0 : targetStepExists (iid.getD "SYSTEM") S
      (updateStepStatusInTimeline S st iid s.timeline) = true := by
    rw [targetStepExists_upd]
    exact h
  have hset0 : stepStatusSettled S st iid
      (updateStepStatusInTimeline S st iid s.timeline) = true :=
    stepStatusSettled_after_upd S st iid s.timeline
  have hset1 : stepStatusSettled S st iid
      (addToTimeline (stepUpdateLog lid1 ts1) iid (some S)
        (updateStepStatusInTimeline S st iid s.timeline)) = true :=
    stepStatusSettled_addToTimeline S st iid (stepUpdateLog lid1 ts1) _ hex0 hset0
  have hex1 : targetStepExists (iid.getD "SYSTEM") S
      (addToTimeline (stepUpdateLog lid1 ts1) iid (some S)
        (updateStepStatusInTimeline S st iid s.timeline)) = true :=
    targetStepExists_addToTimeline (stepUpdateLog lid1 ts1) iid S _
  have hnoop : updateStepStatusInTimeline S st iid
      (addToTimeline (stepUpdateLog lid1 ts1) iid (some S)
        (updateStepStatusInTimeline S st iid s.timeline))
      = addToTimeline (stepUpdateLog lid1 ts1) iid (some S)
          (updateStepStatusInTimeline S st iid s.timeline) :=
    updateStepStatusInTimeline_noop S st iid _ hset1
  constructor
  · show timelineNoLogs
        (addToTimeline (stepUpdateLog lid2 ts2) iid (some S)
          (updateStepStatusInTimeline S st iid
            (addToTimeline (stepUpdateLog lid1 ts1) iid (some S)
              (updateStepStatusInTimeline S st iid s.timeline))))
      = timelineNoLogs
          (addToTimeline (stepUpdateLog lid1 ts1) iid (some S)
            (updateStepStatusInTimeline S st iid s.timeline))
    rw [hnoop]
    exact timelineNoLogs_addToTimeline S iid (stepUpdateLog lid2 ts2) _ hex1
  · show targetStepLogCount (iid.getD "SYSTEM") S
        (addToTimeline (stepUpdateLog lid2 ts2) iid (some S)
          (updateStepStatusInTimeline S st iid
            (addToTimeline (stepUpdateLog lid1 ts1) iid (some S)
              (updateStepStatusInTimeline S st iid s.timeline))))
      = targetStepLogCount (iid.getD "SYSTEM") S
          (addToTimeline (stepUpdateLog lid1 ts1) iid (some S)
            (updateStepStatusInTimeline S st iid s.timeline)) + 1
    rw [hnoop]
    exact targetStepLogCount_addToTimeline S iid (stepUpdateLog lid2 ts2) _

theorem c3_idempotence_amended_witness :
    timelineNoLogs (applyEvent
        (applyEvent c3WitnessState (Event.update_step (some { id := "1", status := "done" }) none "L1" "t1"))
        (Event.update_step (some { id := "1", status := "done" }) none "L2" "t2")).timeline
      = timelineNoLogs
          (applyEvent c3WitnessState (Event.update_step (some { id := "1", status := "done" }) none "L1" "t1")).timeline
    ∧ targetStepLogCount "SYSTEM" "1"
        (applyEvent
          (applyEvent c3WitnessState (Event.update_step (some { id := "1", status := "done" }) none "L1" "t1"))
          (Event.update_step (some { id := "1", status := "done" }) none "L2" "t2")).timeline
      = targetStepLogCount "SYSTEM" "1"
          (applyEvent c3WitnessState (Event.update_step (some { id := "1", status := "done" }) none "L1" "t1")).timeline
        + 1 :=
  c3_idempotence_amended c3WitnessState "1" "done" none "L1" "t1" "L2" "t2" (by decide)

/-- C4 fails on the code: update_step for an id present nowhere does NOT
leave the session unchanged; addToTimeline implicitly creates the step
(and, here, the SYSTEM interaction) and appends a STEP_UPDATE log. -/
theorem c4_missing_step_counterexample :
    applyEvent initialState
        (Event.update_step (some { id := "missing", status := "done" }) none "L1" "t1")
      ≠ initialState := by decide

/-- C4 (amended): applying update_step for an id X that no Step of the
timeline or of the current plan carries never raises and leaves messages,
plan, statuses and all existing steps unchanged; the only change is the
implicit creation performed by addToTimeline, which appends one
STEP_UPDATE log entry under step X of the addressed interaction
(interaction_id, or SYSTEM when absent), creating that interaction and a
pending step X when missing — so afterwards the addressed interaction
does contain a step X. -/
theorem c4_missing_step_amended (s : AppState) (X st : String) (iid : Option String)
    (lid ts : String)
    (h1 : ∀ n ∈ s.timeline, ∀ x ∈ n.steps, (x.id == X) = false)
    (h2 : ∀ p, s.currentPlan = some p → ∀ ps ∈ p.steps, (ps.id == X) = false) :
    applyEvent s (Event.update_step (some { id := X, status := st }) iid lid ts)
      = { s with timeline := addToTimeline (stepUpdateLog lid ts) iid (some X) s.timeline }
    ∧ targetStepExists (iid.getD "SYSTEM") X
        (applyEvent s (Event.update_step (some { id := X, status := st }) iid lid ts)).timeline
      = true := by
  have hupd : updateStepStatusInTimeline X st iid s.timeline = s.timeline :=
    updateStepStatusInTimeline_not_found X st iid s.timeline h1
  have hcp : s.currentPlan.map (fun pl =>
      { pl with steps := pl.steps.map (fun x => if x.id == X then { x with status := st } else x) })
      = s.currentPlan := by
    cases hp : s.currentPlan with
    | none => rfl
    | some p =>
        have hsteps : p.steps.map (fun x => if x.id == X then { x with status := st } else x)
            = p.steps := by
          apply list_map_eq_self
          intro x hx
          rw [h2 p hp x hx]
          simp
        simp only [Option.map_some']
        rw [hsteps]
  constructor
  · show ({ s with
        currentPlan := s.currentPlan.map (fun pl =>
          { pl with steps := pl.steps.map (fun x => if x.id == X then { x with status := st } else x) }),
        timeline := addToTimeline (stepUpdateLog lid ts) iid (some X)
          (updateStepStatusInTimeline X st iid s.timeline) } : AppState)
      = { s with timeline := addToTimeline (stepUpdateLog lid ts) iid (some X) s.timeline }
    rw [hupd, hcp]
  · show targetStepExists (iid.getD "SYSTEM") X
      (addToTimeline (stepUpdateLog lid ts) iid (some X)
        (updateStepStatusInTimeline X st iid s.timeline)) = true
    rw [hupd]
    exact targetStepExists_addToTimeline (stepUpdateLog lid ts) iid X s.timeline

theorem c4_missing_step_amended_witness :
    applyEvent initialState
        (Event.update_step (some { id := "missing", status := "done" }) none "L1" "t1")
      = { initialState with
          timeline := addToTimeline (stepUpdateLog "L1" "t1") none (some "missing")
            initialState.timeline }
    ∧ targetStepExists "SYSTEM" "missing"
        (applyEvent initialState
          (Event.update_step (some { id := "missing", status := "done" }) none "L1" "t1")).timeline
      = true :=
  c4_missing_step_amended initialState "missing" "done" none "L1" "t1"
    (fun _n hn => nomatch hn) (fun _p hp => nomatch hp)

/-- C10: an inbound transcript message with non-empty text is deduplicated
against the tail of the conversational message list: when the last entry
is a user message with the same text the list is unchanged, otherwise a
new user message with that text is appended at the end. -/
theorem c10_transcript_dedup (s : AppState) (t : String) (h : ¬ t = "") :
    (s.messages.getLast?.any (fun m => m.role == "user" && m.text == some t) = true →
        applyEvent s (Event.transcript (some t)) = s)
    ∧ (s.messages.getLast?.any (fun m => m.role == "user" && m.text == some t) = false →
        applyEvent s (Event.transcript (some t))
          = { s with messages := s.messages ++ [{ role := "user", text := some t, type := some "text" }] }) := by
  constructor <;> intro hdup <;> simp [applyEvent, hdup, h]

theorem c10_transcript_dedup_witness :
    applyEvent initialState (Event.transcript (some "hi"))
      = { initialState with messages := [{ role := "user", text := some "hi", type := some "text" }] } :=
  (c10_transcript_dedup initialState "hi" (by decide)).2 rfl

/-- C5: over every sequence of inbound events applied to the empty
session, the timeline's Interaction ids stay pairwise distinct — an event
whose interaction id is already present mutates the existing node in
place, never creating a duplicate (Interaction creation happens only
through the guarded upsert of addToTimeline). -/
theorem c5_unique_interaction_ids (es : List Event) :
    (timelineIds (applyEvents initialState es).timeline).Nodup := by
  suffices hgen : ∀ s : AppState, (timelineIds s.timeline).Nodup →
      (timelineIds (applyEvents s es).timeline).Nodup by
    exact hgen initialState (by simp [initialState, timelineIds])
  induction es with
  | nil => intro s hs; exact hs
  | cons e rest ih =>
      intro s hs
      exact ih (applyEvent s e) (applyEvent_preserves_nodup s e hs)

end VCCA
